import Mathlib

/-
  Verification of the TicketEngine contract (packages/hardhat/contracts/TicketEngine.sol).

  The contract is embedded shallowly: the contract storage becomes the record
  `EngineState`, Solidity mappings become total functions with the zero-value
  default, `uint256` becomes `Nat` (all arithmetic in the contract is guarded:
  `remainingTickets--` only runs when `remainingTickets != 0`, and the `++`
  counters revert long before 2^256, so no wrap-around is observable), addresses
  become `Nat`, `block.timestamp` becomes an explicit `now` argument, and a
  reverting `require` becomes `Except.error` with the revert string, leaving the
  pre-state untouched.  ERC721 minting only mirrors the contract's own `tickets`
  mapping and is not separately modelled (it is library code outside this
  repository and no claim refers to it).
-/

namespace TicketEngine

/-- The `AttemptResult` enum of the contract.  The spec names these
`Success`, `AlreadyClaimed`, `Exhausted`, `NotYetActive` respectively. -/
inductive AttemptResult
  | Success
  | AlreadyOwnsTicket
  | SoldOut
  | NotStarted
  deriving DecidableEq

/-- The `Event` struct (the Solidity field `exists` is spelled `exists_`). -/
structure Event where
  id : Nat
  title : String
  startTime : Nat
  totalTickets : Nat
  remainingTickets : Nat
  organizer : Nat
  exists_ : Bool
  deriving DecidableEq

/-- The `Ticket` struct. -/
structure Ticket where
  id : Nat
  eventId : Nat
  owner : Nat
  acquiredAt : Nat
  deriving DecidableEq

/-- The `Attempt` struct: one entry of a user's attempt log. -/
structure Attempt where
  eventId : Nat
  participant : Nat
  timestamp : Nat
  result : AttemptResult
  deriving DecidableEq

/-- Pointwise update of a one-key mapping (Solidity `m[k] = v`). -/
def updF {α : Type} (f : Nat → α) (k : Nat) (v : α) : Nat → α :=
  fun i => if i = k then v else f i

/-- Pointwise update of a two-key mapping (Solidity `m[k1][k2] = v`). -/
def updF2 {α : Type} (f : Nat → Nat → α) (k1 k2 : Nat) (v : α) : Nat → Nat → α :=
  fun i j => if i = k1 ∧ j = k2 then v else f i j

/-- The contract storage of `TicketEngine`. -/
structure EngineState where
  nextEventId : Nat
  nextTicketId : Nat
  events : Nat → Event
  tickets : Nat → Ticket
  hasTicketForEvent : Nat → Nat → Bool
  userTicketForEvent : Nat → Nat → Nat
  eventTickets : Nat → List Nat
  userEvents : Nat → List Nat
  userAttempts : Nat → List Attempt
  allEventIds : List Nat

/-- Storage right after the constructor: counters at 1, every mapping at its
Solidity zero value. -/
def initState : EngineState where
  nextEventId := 1
  nextTicketId := 1
  events := fun _ => { id := 0, title := "", startTime := 0, totalTickets := 0,
                       remainingTickets := 0, organizer := 0, exists_ := false }
  tickets := fun _ => { id := 0, eventId := 0, owner := 0, acquiredAt := 0 }
  hasTicketForEvent := fun _ _ => false
  userTicketForEvent := fun _ _ => 0
  eventTickets := fun _ => []
  userEvents := fun _ => []
  userAttempts := fun _ => []
  allEventIds := []

/-- `_recordAttempt(_eventId, _result)`: push one `Attempt` onto
`userAttempts[msg.sender]`. -/
def _recordAttempt (s : EngineState) (sender _eventId now : Nat)
    (_result : AttemptResult) : EngineState :=
  { s with userAttempts := updF s.userAttempts sender
             (s.userAttempts sender ++ [⟨_eventId, sender, now, _result⟩]) }

/-- The storage writes of the success branch of `grabTicket` (lines 168-184 of
the contract): consume `nextTicketId`, decrement `remainingTickets`, store the
ticket, and update the ownership mappings. -/
def successState (s : EngineState) (sender _eventId now : Nat) : EngineState :=
  let evt := s.events _eventId
  let ticketId := s.nextTicketId
  { s with
    nextTicketId := s.nextTicketId + 1
    events := updF s.events _eventId
                { evt with remainingTickets := evt.remainingTickets - 1 }
    tickets := updF s.tickets ticketId ⟨ticketId, _eventId, sender, now⟩
    hasTicketForEvent := updF2 s.hasTicketForEvent _eventId sender true
    userTicketForEvent := updF2 s.userTicketForEvent _eventId sender ticketId
    eventTickets := updF s.eventTickets _eventId (s.eventTickets _eventId ++ [ticketId])
    userEvents := updF s.userEvents sender (s.userEvents sender ++ [_eventId]) }

/-- The storage writes of a successful `createEvent` (lines 118-130 of the
contract): consume `nextEventId` and store the event with
`remainingTickets = _totalTickets`. -/
def createdState (s : EngineState) (sender : Nat) (_title : String)
    (_startTime _totalTickets : Nat) : EngineState :=
  let eventId := s.nextEventId
  { s with
    nextEventId := s.nextEventId + 1
    events := updF s.events eventId
      { id := eventId, title := _title, startTime := _startTime,
        totalTickets := _totalTickets, remainingTickets := _totalTickets,
        organizer := sender, exists_ := true }
    allEventIds := s.allEventIds ++ [eventId] }

/-- `createEvent(_title, _startTime, _totalTickets)`.  The three `require`s, in
source order, become nested guards; a failed `require` reverts
(`Except.error` with the revert string, state dropped). -/
def createEvent (s : EngineState) (sender : Nat) (_title : String)
    (_startTime _totalTickets now : Nat) : Except String (Nat × EngineState) :=
  if 0 < _title.length then
    if 0 < _totalTickets then
      if now < _startTime then
        Except.ok (s.nextEventId, createdState s sender _title _startTime _totalTickets)
      else Except.error "Start time must be in future"
    else Except.error "Must have at least 1 ticket"
  else Except.error "Title cannot be empty"

/-- `grabTicket(_eventId)`: the four checks in source order (existence, timing,
duplicate, exhaustion), each failure recording one attempt; the success branch
performs the storage writes of `successState` and records a `Success` attempt. -/
def grabTicket (s : EngineState) (sender _eventId now : Nat) :
    Except String ((Bool × AttemptResult × Nat) × EngineState) :=
  let evt := s.events _eventId
  if evt.exists_ = true then
    if now < evt.startTime then
      Except.ok ((false, AttemptResult.NotStarted, 0),
        _recordAttempt s sender _eventId now AttemptResult.NotStarted)
    else if s.hasTicketForEvent _eventId sender = true then
      Except.ok ((false, AttemptResult.AlreadyOwnsTicket, 0),
        _recordAttempt s sender _eventId now AttemptResult.AlreadyOwnsTicket)
    else if evt.remainingTickets = 0 then
      Except.ok ((false, AttemptResult.SoldOut, 0),
        _recordAttempt s sender _eventId now AttemptResult.SoldOut)
    else
      Except.ok ((true, AttemptResult.Success, s.nextTicketId),
        _recordAttempt (successState s sender _eventId now) sender _eventId now
          AttemptResult.Success)
  else Except.error "Event does not exist"

/-- `getRecentTickets(_eventId, _limit)`: the last `min(len, _limit)` issued
ticket ids of the event, newest first, with their owners and acquisition
times. -/
def getRecentTickets (s : EngineState) (_eventId _limit : Nat) :
    List Nat × List Nat × List Nat :=
  let evtTickets := s.eventTickets _eventId
  let len := evtTickets.length
  let returnLen := if len < _limit then len else _limit
  let ticketIds := (List.range returnLen).map fun i => evtTickets.getD (len - 1 - i) 0
  (ticketIds,
   ticketIds.map fun tId => (s.tickets tId).owner,
   ticketIds.map fun tId => (s.tickets tId).acquiredAt)

/-- One external transaction against the engine. -/
inductive Op
  | create (sender : Nat) (title : String) (startTime totalTickets now : Nat)
  | grab (sender eventId now : Nat)

/-- What one transaction returned. -/
inductive OpResult
  | created (eventId : Nat)
  | createFailed (msg : String)
  | grabbed (success : Bool) (result : AttemptResult) (ticketId : Nat)
  | grabFailed (msg : String)
  deriving DecidableEq

/-- Run one transaction; a revert (`Except.error`) leaves the state unchanged. -/
def applyOp (s : EngineState) (op : Op) : EngineState × OpResult :=
  match op with
  | Op.create sender title startTime totalTickets now =>
    match createEvent s sender title startTime totalTickets now with
    | Except.ok (eid, s1) => (s1, OpResult.created eid)
    | Except.error m => (s, OpResult.createFailed m)
  | Op.grab sender eventId now =>
    match grabTicket s sender eventId now with
    | Except.ok ((b, r, tid), s1) => (s1, OpResult.grabbed b r tid)
    | Except.error m => (s, OpResult.grabFailed m)

/-- Run a list of transactions, collecting the results. -/
def runFrom (s : EngineState) : List Op → EngineState × List OpResult
  | [] => (s, [])
  | op :: ops =>
    let p := applyOp s op
    let q := runFrom p.1 ops
    (q.1, p.2 :: q.2)

/-- The ticket ids handed out by the successful claims of a result list, in
order of occurrence. -/
def issuedIds (rs : List OpResult) : List Nat :=
  rs.filterMap fun r =>
    match r with
    | OpResult.grabbed true _ tid => some tid
    | _ => none

/-- One engine transition: some transaction turns `s` into `t`. -/
def Step (s t : EngineState) : Prop := ∃ op, (applyOp s op).1 = t

/-- States reachable from the freshly deployed contract. -/
def Reachable (s : EngineState) : Prop := Relation.ReflTransGen Step initState s

/-- `t` indexes a ticket of event `e` owned by `c` (the contract marks a
`tickets` slot as occupied by a nonzero `id`, cf. `tokenURI`). -/
def isTicketFor (s : EngineState) (t e c : Nat) : Prop :=
  (s.tickets t).id ≠ 0 ∧ (s.tickets t).eventId = e ∧ (s.tickets t).owner = c

/-- Exhaustive case analysis of `grabTicket`, mirroring the four checks of the
source and the success branch. -/
theorem grab_cases (s : EngineState) (c e now : Nat) :
    ((s.events e).exists_ = false ∧
      grabTicket s c e now = Except.error "Event does not exist" ∧
      applyOp s (Op.grab c e now) = (s, OpResult.grabFailed "Event does not exist"))
  ∨ ((s.events e).exists_ = true ∧ now < (s.events e).startTime ∧
      applyOp s (Op.grab c e now)
        = (_recordAttempt s c e now AttemptResult.NotStarted,
           OpResult.grabbed false AttemptResult.NotStarted 0))
  ∨ ((s.events e).exists_ = true ∧ ¬ now < (s.events e).startTime ∧
      s.hasTicketForEvent e c = true ∧
      applyOp s (Op.grab c e now)
        = (_recordAttempt s c e now AttemptResult.AlreadyOwnsTicket,
           OpResult.grabbed false AttemptResult.AlreadyOwnsTicket 0))
  ∨ ((s.events e).exists_ = true ∧ ¬ now < (s.events e).startTime ∧
      s.hasTicketForEvent e c = false ∧ (s.events e).remainingTickets = 0 ∧
      applyOp s (Op.grab c e now)
        = (_recordAttempt s c e now AttemptResult.SoldOut,
           OpResult.grabbed false AttemptResult.SoldOut 0))
  ∨ ((s.events e).exists_ = true ∧ ¬ now < (s.events e).startTime ∧
      s.hasTicketForEvent e c = false ∧ (s.events e).remainingTickets ≠ 0 ∧
      applyOp s (Op.grab c e now)
        = (_recordAttempt (successState s c e now) c e now AttemptResult.Success,
           OpResult.grabbed true AttemptResult.Success s.nextTicketId)) := by
  by_cases h1 : (s.events e).exists_ = true
  · by_cases h2 : now < (s.events e).startTime
    · exact Or.inr (Or.inl ⟨h1, h2, by simp [applyOp, grabTicket, h1, h2]⟩)
    · by_cases h3 : s.hasTicketForEvent e c = true
      · exact Or.inr (Or.inr (Or.inl ⟨h1, h2, h3,
          by simp [applyOp, grabTicket, h1, h2, h3]⟩))
      · have h3' : s.hasTicketForEvent e c = false := by simpa using h3
        by_cases h4 : (s.events e).remainingTickets = 0
        · exact Or.inr (Or.inr (Or.inr (Or.inl ⟨h1, h2, h3', h4,
            by simp [applyOp, grabTicket, h1, h2, h3', h4]⟩)))
        · exact Or.inr (Or.inr (Or.inr (Or.inr ⟨h1, h2, h3', h4,
            by simp [applyOp, grabTicket, h1, h2, h3', h4]⟩)))
  · have h1' : (s.events e).exists_ = false := by simpa using h1
    exact Or.inl ⟨h1', by simp [grabTicket, h1'],
      by simp [applyOp, grabTicket, h1']⟩

/-- Exhaustive case analysis of `createEvent`, mirroring the three `require`s
of the source and the success branch. -/
theorem create_cases (s : EngineState) (c : Nat) (title : String)
    (st tot now : Nat) :
    ((¬ 0 < title.length ∨ ¬ 0 < tot ∨ ¬ now < st) ∧
      ∃ msg, createEvent s c title st tot now = Except.error msg ∧
        applyOp s (Op.create c title st tot now) = (s, OpResult.createFailed msg))
  ∨ (0 < title.length ∧ 0 < tot ∧ now < st ∧
      createEvent s c title st tot now
        = Except.ok (s.nextEventId, createdState s c title st tot) ∧
      applyOp s (Op.create c title st tot now)
        = (createdState s c title st tot, OpResult.created s.nextEventId)) := by
  by_cases h1 : 0 < title.length
  · by_cases h2 : 0 < tot
    · by_cases h3 : now < st
      · exact Or.inr ⟨h1, h2, h3, by simp [createEvent, h1, h2, h3],
          by simp [applyOp, createEvent, h1, h2, h3]⟩
      · exact Or.inl ⟨Or.inr (Or.inr h3), "Start time must be in future",
          by simp [createEvent, h1, h2, h3],
          by simp [applyOp, createEvent, h1, h2, h3]⟩
    · exact Or.inl ⟨Or.inr (Or.inl h2), "Must have at least 1 ticket",
        by simp [createEvent, h1, h2], by simp [applyOp, createEvent, h1, h2]⟩
  · exact Or.inl ⟨Or.inl h1, "Title cannot be empty",
      by simp [createEvent, h1], by simp [applyOp, createEvent, h1]⟩

/-- The inductive invariant of the engine storage. -/
structure Inv (s : EngineState) : Prop where
  oneLeEvent : 1 ≤ s.nextEventId
  oneLeTicket : 1 ≤ s.nextTicketId
  eventLt : ∀ e, (s.events e).exists_ = true → e < s.nextEventId
  capLe : ∀ e, (s.events e).exists_ = true →
    (s.events e).remainingTickets ≤ (s.events e).totalTickets
  countEq : ∀ e, (s.events e).exists_ = true →
    (s.eventTickets e).length + (s.events e).remainingTickets = (s.events e).totalTickets
  noTickets : ∀ e, (s.events e).exists_ = false → s.eventTickets e = []
  ticketIdEq : ∀ t, (s.tickets t).id ≠ 0 →
    (s.tickets t).id = t ∧ 0 < t ∧ t < s.nextTicketId
  ticketFresh : ∀ t, s.nextTicketId ≤ t → (s.tickets t).id = 0
  ticketMarked : ∀ t, (s.tickets t).id ≠ 0 →
    s.hasTicketForEvent (s.tickets t).eventId (s.tickets t).owner = true
  ticketUniq : ∀ t1 t2, (s.tickets t1).id ≠ 0 → (s.tickets t2).id ≠ 0 →
    (s.tickets t1).eventId = (s.tickets t2).eventId →
    (s.tickets t1).owner = (s.tickets t2).owner → t1 = t2

theorem inv_init : Inv initState := by
  constructor <;> intros <;> simp_all [initState]

/-- The slot `nextEventId` is still unoccupied. -/
theorem next_event_not_exists (h : Inv s) :
    (s.events s.nextEventId).exists_ = false := by
  cases hb : (s.events s.nextEventId).exists_
  · rfl
  · exact absurd (h.eventLt _ hb) (lt_irrefl _)

theorem inv_recordAttempt (h : Inv s) (c e now : Nat) (r : AttemptResult) :
    Inv (_recordAttempt s c e now r) :=
  ⟨h.oneLeEvent, h.oneLeTicket, h.eventLt, h.capLe, h.countEq, h.noTickets,
   h.ticketIdEq, h.ticketFresh, h.ticketMarked, h.ticketUniq⟩

theorem inv_createdState (h : Inv s) (c : Nat) (title : String) (st tot : Nat) :
    Inv (createdState s c title st tot) := by
  have hfresh : (s.events s.nextEventId).exists_ = false := next_event_not_exists h
  have hempty : s.eventTickets s.nextEventId = [] := h.noTickets _ hfresh
  refine ⟨Nat.le_succ_of_le h.oneLeEvent, h.oneLeTicket, ?_, ?_, ?_, ?_,
    h.ticketIdEq, h.ticketFresh, h.ticketMarked, h.ticketUniq⟩
  · intro e he
    by_cases hx : e = s.nextEventId
    · subst hx; simp [createdState]
    · simp only [createdState, updF] at he ⊢
      rw [if_neg hx] at he
      exact Nat.lt_succ_of_lt (h.eventLt e he)
  · intro e he
    by_cases hx : e = s.nextEventId
    · subst hx; simp [createdState, updF]
    · simp only [createdState, updF] at he ⊢
      rw [if_neg hx] at he ⊢
      exact h.capLe e he
  · intro e he
    by_cases hx : e = s.nextEventId
    · subst hx; simp [createdState, updF, hempty]
    · simp only [createdState, updF] at he ⊢
      rw [if_neg hx] at he ⊢
      exact h.countEq e he
  · intro e he
    by_cases hx : e = s.nextEventId
    · subst hx; simp [createdState, updF] at he
    · simp only [createdState, updF] at he ⊢
      rw [if_neg hx] at he
      exact h.noTickets e he

theorem inv_successState (h : Inv s) (hex : (s.events e).exists_ = true)
    (hdup : s.hasTicketForEvent e c = false)
    (hrem : (s.events e).remainingTickets ≠ 0) :
    Inv (successState s c e now) := by
  refine ⟨h.oneLeEvent, Nat.le_succ_of_le h.oneLeTicket, ?_, ?_, ?_, ?_, ?_, ?_, ?_, ?_⟩
  · intro e' he'
    by_cases hx : e' = e
    · subst hx; exact h.eventLt _ hex
    · simp only [successState, updF] at he'
      rw [if_neg hx] at he'
      exact h.eventLt e' he'
  · intro e' he'
    by_cases hx : e' = e
    · subst hx
      have hc := h.capLe _ hex
      simp [successState, updF]
      omega
    · simp only [successState, updF] at he' ⊢
      simp only [if_neg hx] at he' ⊢
      exact h.capLe e' he'
  · intro e' he'
    by_cases hx : e' = e
    · subst hx
      have hc := h.countEq _ hex
      simp [successState, updF]
      omega
    · simp only [successState, updF] at he' ⊢
      simp only [if_neg hx] at he' ⊢
      exact h.countEq e' he'
  · intro e' he'
    by_cases hx : e' = e
    · subst hx
      simp [successState, updF, hex] at he'
    · simp only [successState, updF] at he' ⊢
      simp only [if_neg hx] at he' ⊢
      exact h.noTickets e' he'
  · intro t ht
    by_cases hx : t = s.nextTicketId
    · subst hx
      refine ⟨by simp [successState, updF],
        lt_of_lt_of_le Nat.zero_lt_one h.oneLeTicket, ?_⟩
      show s.nextTicketId < s.nextTicketId + 1
      exact Nat.lt_succ_self _
    · simp only [successState, updF] at ht ⊢
      simp only [if_neg hx] at ht ⊢
      obtain ⟨ha, hb, hc⟩ := h.ticketIdEq t ht
      exact ⟨ha, hb, Nat.lt_succ_of_lt hc⟩
  · intro t ht
    have ht' : s.nextTicketId + 1 ≤ t := ht
    have hne : t ≠ s.nextTicketId := by omega
    show (updF s.tickets s.nextTicketId _ t).id = 0
    simp only [updF, if_neg hne]
    exact h.ticketFresh t (by omega)
  · intro t ht
    by_cases hx : t = s.nextTicketId
    · subst hx
      simp [successState, updF, updF2]
    · have ht' : (s.tickets t).id ≠ 0 := by
        simpa [successState, updF, hx] using ht
      have hm := h.ticketMarked t ht'
      show updF2 s.hasTicketForEvent e c true _ _ = true
      simp only [successState, updF, updF2, if_neg hx]
      split
      · rfl
      · exact hm
  · intro t1 t2 h1 h2 heq hown
    by_cases hx1 : t1 = s.nextTicketId <;> by_cases hx2 : t2 = s.nextTicketId
    · rw [hx1, hx2]
    · exfalso
      subst hx1
      have h2' : (s.tickets t2).id ≠ 0 := by
        simpa [successState, updF, hx2] using h2
      have heq' : e = (s.tickets t2).eventId := by
        simpa [successState, updF, hx2] using heq
      have hown' : c = (s.tickets t2).owner := by
        simpa [successState, updF, hx2] using hown
      have hm := h.ticketMarked t2 h2'
      rw [← heq', ← hown'] at hm
      simp [hdup] at hm
    · exfalso
      subst hx2
      have h1' : (s.tickets t1).id ≠ 0 := by
        simpa [successState, updF, hx1] using h1
      have heq' : (s.tickets t1).eventId = e := by
        simpa [successState, updF, hx1] using heq
      have hown' : (s.tickets t1).owner = c := by
        simpa [successState, updF, hx1] using hown
      have hm := h.ticketMarked t1 h1'
      rw [heq', hown'] at hm
      simp [hdup] at hm
    · have h1' : (s.tickets t1).id ≠ 0 := by
        simpa [successState, updF, hx1] using h1
      have h2' : (s.tickets t2).id ≠ 0 := by
        simpa [successState, updF, hx2] using h2
      have heq' : (s.tickets t1).eventId = (s.tickets t2).eventId := by
        simpa [successState, updF, hx1, hx2] using heq
      have hown' : (s.tickets t1).owner = (s.tickets t2).owner := by
        simpa [successState, updF, hx1, hx2] using hown
      exact h.ticketUniq t1 t2 h1' h2' heq' hown'

theorem inv_applyOp (h : Inv s) (op : Op) : Inv ((applyOp s op).1) := by
  cases op with
  | create c title st tot now =>
    rcases create_cases s c title st tot now with ⟨_, msg, _, hap⟩ | ⟨_, _, _, _, hap⟩
    · rw [hap]; exact h
    · rw [hap]; exact inv_createdState h c title st tot
  | grab c e now =>
    rcases grab_cases s c e now with ⟨_, _, hap⟩ | ⟨_, _, hap⟩ | ⟨_, _, _, hap⟩ |
      ⟨_, _, _, _, hap⟩ | ⟨hex, _, hdup, hrem, hap⟩
    · rw [hap]; exact h
    · rw [hap]; exact inv_recordAttempt h c e now _
    · rw [hap]; exact inv_recordAttempt h c e now _
    · rw [hap]; exact inv_recordAttempt h c e now _
    · rw [hap]; exact inv_recordAttempt (inv_successState h hex hdup hrem) c e now _

theorem inv_step (h : Inv s) (hst : Step s t) : Inv t := by
  obtain ⟨op, rfl⟩ := hst
  exact inv_applyOp h op

theorem inv_rtg (h : Inv s) (hst : Relation.ReflTransGen Step s t) : Inv t := by
  induction hst with
  | refl => exact h
  | tail _ hstep ih => exact inv_step ih hstep

theorem reachable_inv (h : Reachable s) : Inv s := inv_rtg inv_init h

/-- One transaction never changes an existing event's identity, immutable
attributes, or existence flag. -/
theorem applyOp_event_pres (h : Inv s) (op : Op) (e : Nat)
    (hex : (s.events e).exists_ = true) :
    (((applyOp s op).1.events e).exists_ = true ∧
     ((applyOp s op).1.events e).totalTickets = (s.events e).totalTickets) := by
  cases op with
  | create c title st tot now =>
    rcases create_cases s c title st tot now with ⟨_, msg, _, hap⟩ | ⟨_, _, _, _, hap⟩
    · rw [hap]; exact ⟨hex, rfl⟩
    · rw [hap]
      have hne : e ≠ s.nextEventId := Nat.ne_of_lt (h.eventLt e hex)
      simp [createdState, updF, hne, hex]
  | grab c e0 now =>
    rcases grab_cases s c e0 now with ⟨_, _, hap⟩ | ⟨_, _, hap⟩ | ⟨_, _, _, hap⟩ |
      ⟨_, _, _, _, hap⟩ | ⟨_, _, _, _, hap⟩
    · rw [hap]; exact ⟨hex, rfl⟩
    · rw [hap]; exact ⟨hex, rfl⟩
    · rw [hap]; exact ⟨hex, rfl⟩
    · rw [hap]; exact ⟨hex, rfl⟩
    · rw [hap]
      by_cases hx : e = e0
      · subst hx
        refine ⟨?_, ?_⟩ <;> simp [successState, updF, _recordAttempt, hex]
      · refine ⟨?_, ?_⟩ <;> simp [successState, updF, _recordAttempt, hx, hex]

/-- One transaction never rewrites an occupied `tickets` slot. -/
theorem applyOp_ticket_pres (h : Inv s) (op : Op) (t : Nat)
    (ht : (s.tickets t).id ≠ 0) :
    (applyOp s op).1.tickets t = s.tickets t := by
  cases op with
  | create c title st tot now =>
    rcases create_cases s c title st tot now with ⟨_, msg, _, hap⟩ | ⟨_, _, _, _, hap⟩
    · rw [hap]
    · rw [hap]; rfl
  | grab c e0 now =>
    rcases grab_cases s c e0 now with ⟨_, _, hap⟩ | ⟨_, _, hap⟩ | ⟨_, _, _, hap⟩ |
      ⟨_, _, _, _, hap⟩ | ⟨_, _, _, _, hap⟩
    · rw [hap]
    · rw [hap]; rfl
    · rw [hap]; rfl
    · rw [hap]; rfl
    · rw [hap]
      have hne : t ≠ s.nextTicketId := Nat.ne_of_lt (h.ticketIdEq t ht).2.2
      simp [successState, updF, _recordAttempt, hne]

theorem rtg_event_pres (h : Inv s) (hrtg : Relation.ReflTransGen Step s t)
    (e : Nat) (hex : (s.events e).exists_ = true) :
    ((t.events e).exists_ = true ∧
     (t.events e).totalTickets = (s.events e).totalTickets) := by
  induction hrtg with
  | refl => exact ⟨hex, rfl⟩
  | tail hab hbc ih =>
    obtain ⟨hexb, htotb⟩ := ih
    obtain ⟨op, rfl⟩ := hbc
    obtain ⟨hexc, htotc⟩ := applyOp_event_pres (inv_rtg h hab) op e hexb
    exact ⟨hexc, htotc.trans htotb⟩

theorem rtg_ticket_pres (h : Inv s) (hrtg : Relation.ReflTransGen Step s t)
    (tk : Nat) (ht : (s.tickets tk).id ≠ 0) :
    t.tickets tk = s.tickets tk := by
  induction hrtg with
  | refl => rfl
  | tail hab hbc ih =>
    obtain ⟨op, rfl⟩ := hbc
    have hb : _ ≠ 0 := ih ▸ ht
    exact (applyOp_ticket_pres (inv_rtg h hab) op tk hb).trans ih

/-- `nextTicketId` never decreases. -/
theorem applyOp_nextTicket_mono (s : EngineState) (op : Op) :
    s.nextTicketId ≤ ((applyOp s op).1).nextTicketId := by
  cases op with
  | create c title st tot now =>
    rcases create_cases s c title st tot now with ⟨_, msg, _, hap⟩ | ⟨_, _, _, _, hap⟩
    · rw [hap]
    · rw [hap]; exact le_refl _
  | grab c e0 now =>
    rcases grab_cases s c e0 now with ⟨_, _, hap⟩ | ⟨_, _, hap⟩ | ⟨_, _, _, hap⟩ |
      ⟨_, _, _, _, hap⟩ | ⟨_, _, _, _, hap⟩
    · rw [hap]
    · rw [hap]; exact le_refl _
    · rw [hap]; exact le_refl _
    · rw [hap]; exact le_refl _
    · rw [hap]; exact Nat.le_succ _

/-- A successful claim consumes exactly the current `nextTicketId`. -/
theorem applyOp_success_next (s : EngineState) (op : Op) (r : AttemptResult)
    (tid : Nat) (hr : (applyOp s op).2 = OpResult.grabbed true r tid) :
    tid = s.nextTicketId ∧
    ((applyOp s op).1).nextTicketId = s.nextTicketId + 1 ∧
    r = AttemptResult.Success := by
  cases op with
  | create c title st tot now =>
    rcases create_cases s c title st tot now with ⟨_, msg, _, hap⟩ | ⟨_, _, _, _, hap⟩ <;>
      rw [hap] at hr <;> simp at hr
  | grab c e0 now =>
    rcases grab_cases s c e0 now with ⟨_, _, hap⟩ | ⟨_, _, hap⟩ | ⟨_, _, _, hap⟩ |
      ⟨_, _, _, _, hap⟩ | ⟨_, _, _, _, hap⟩ <;> rw [hap] at hr <;> simp at hr
    obtain ⟨hrr, htid⟩ := hr
    refine ⟨htid.symm, ?_, hrr.symm⟩
    rw [hap]
    rfl

/-- An unsuccessful claim consumes no ticket id and returns ticket id 0. -/
theorem applyOp_fail_next (s : EngineState) (op : Op) (r : AttemptResult)
    (tid : Nat) (hr : (applyOp s op).2 = OpResult.grabbed false r tid) :
    ((applyOp s op).1).nextTicketId = s.nextTicketId ∧ tid = 0 ∧
    r ≠ AttemptResult.Success := by
  cases op with
  | create c title st tot now =>
    rcases create_cases s c title st tot now with ⟨_, msg, _, hap⟩ | ⟨_, _, _, _, hap⟩ <;>
      rw [hap] at hr <;> simp at hr
  | grab c e0 now =>
    rcases grab_cases s c e0 now with ⟨_, _, hap⟩ | ⟨_, _, hap⟩ | ⟨_, _, _, hap⟩ |
      ⟨_, _, _, _, hap⟩ | ⟨_, _, _, _, hap⟩ <;> rw [hap] at hr <;> simp at hr
    · exact ⟨by rw [hap]; rfl, hr.2.symm, by rw [← hr.1]; simp⟩
    · exact ⟨by rw [hap]; rfl, hr.2.symm, by rw [← hr.1]; simp⟩
    · exact ⟨by rw [hap]; rfl, hr.2.symm, by rw [← hr.1]; simp⟩

/-- Every ticket id issued along a run is at least the starting
`nextTicketId`. -/
theorem issued_lb : ∀ (ops : List Op) (s : EngineState) (t : Nat),
    t ∈ issuedIds (runFrom s ops).2 → s.nextTicketId ≤ t := by
  intro ops
  induction ops with
  | nil => intro s t ht; simp [runFrom, issuedIds] at ht
  | cons op ops ih =>
    intro s t ht
    simp only [runFrom] at ht
    cases hr : (applyOp s op).2 with
    | grabbed b r tid =>
      cases b
      · simp only [issuedIds, List.filterMap_cons, hr] at ht
        exact le_trans (applyOp_nextTicket_mono s op) (ih _ t ht)
      · simp only [issuedIds, List.filterMap_cons, hr, List.mem_cons] at ht
        obtain ⟨htid, hnext, _⟩ := applyOp_success_next s op r tid hr
        rcases ht with rfl | ht
        · exact le_of_eq htid.symm
        · exact le_trans (applyOp_nextTicket_mono s op) (ih _ t ht)
    | created eid =>
      simp only [issuedIds, List.filterMap_cons, hr] at ht
      exact le_trans (applyOp_nextTicket_mono s op) (ih _ t ht)
    | createFailed msg =>
      simp only [issuedIds, List.filterMap_cons, hr] at ht
      exact le_trans (applyOp_nextTicket_mono s op) (ih _ t ht)
    | grabFailed msg =>
      simp only [issuedIds, List.filterMap_cons, hr] at ht
      exact le_trans (applyOp_nextTicket_mono s op) (ih _ t ht)

/-- The ticket ids issued along a run are strictly increasing. -/
theorem issued_pairwise : ∀ (ops : List Op) (s : EngineState),
    List.Pairwise (· < ·) (issuedIds (runFrom s ops).2) := by
  intro ops
  induction ops with
  | nil => intro s; simp [runFrom, issuedIds]
  | cons op ops ih =>
    intro s
    simp only [runFrom]
    cases hr : (applyOp s op).2 with
    | grabbed b r tid =>
      cases b
      · simpa only [issuedIds, List.filterMap_cons, hr] using ih _
      · simp only [issuedIds, List.filterMap_cons, hr, List.pairwise_cons]
        obtain ⟨htid, hnext, _⟩ := applyOp_success_next s op r tid hr
        refine ⟨?_, ih _⟩
        intro b hb
        have := issued_lb ops _ b hb
        omega
    | created eid => simpa only [issuedIds, List.filterMap_cons, hr] using ih _
    | createFailed msg => simpa only [issuedIds, List.filterMap_cons, hr] using ih _
    | grabFailed msg => simpa only [issuedIds, List.filterMap_cons, hr] using ih _

/-- Running a batch of transactions only moves through `Step`. -/
theorem rtg_runFrom : ∀ (ops : List Op) (s : EngineState),
    Relation.ReflTransGen Step s ((runFrom s ops).1) := by
  intro ops
  induction ops with
  | nil => intro s; exact Relation.ReflTransGen.refl
  | cons op ops ih =>
    intro s
    exact Relation.ReflTransGen.head ⟨op, rfl⟩ (ih ((applyOp s op).1))

/-- The `bytes(_title).length > 0` guard fails exactly on the empty string. -/
theorem title_length_zero_iff (t : String) : ¬ 0 < t.length ↔ t = "" := by
  rw [Nat.not_lt, Nat.le_zero]
  constructor
  · intro h
    cases t with
    | mk data =>
      cases data with
      | nil => rfl
      | cons a as => simp [String.length] at h
  · rintro rfl
    rfl

/-- Core shape of `getRecentTickets`: reading indices `len - 1 - i` for
`i < min len lim` is reversing and truncating. -/
theorem recent_eq (l : List Nat) (lim : Nat) :
    (List.range (if l.length < lim then l.length else lim)).map
      (fun i => l.getD (l.length - 1 - i) 0) = l.reverse.take lim := by
  apply List.ext_getElem
  · simp only [List.length_map, List.length_range, List.length_take,
      List.length_reverse]
    split <;> omega
  · intro i h1 h2
    simp only [List.length_map, List.length_range] at h1
    have hlen : 0 < l.length := by split at h1 <;> omega
    have hb : l.length - 1 - i < l.length := by omega
    simp only [List.getElem_map, List.getElem_range]
    rw [List.getElem_take, List.getElem_reverse, List.getD_eq_getElem l 0 hb]

/-- The spec's example scenario as a transaction batch: an event of capacity 2
opening at time 100, a premature claim, two successes, a duplicate, and a
claim against the sold-out event. -/
def opsA : List Op :=
  [Op.create 7 "X" 100 2 0, Op.grab 5 1 50, Op.grab 5 1 150, Op.grab 5 1 150,
   Op.grab 6 1 150, Op.grab 8 1 150]

/-- The storage after running `opsA`. -/
def sA : EngineState := (runFrom initState opsA).1

/-- The storage right after creating the capacity-2 event. -/
def s1 : EngineState := (applyOp initState (Op.create 7 "X" 100 2 0)).1

theorem reachable_sA : Reachable sA := rtg_runFrom opsA initState

theorem reachable_s1 : Reachable s1 :=
  rtg_runFrom [Op.create 7 "X" 100 2 0] initState

/-- C1: in every reachable state, every created event keeps
`remainingTickets ≤ totalTickets` (`0 ≤ remainingTickets` holds by the `Nat`
embedding), the count of issued tickets (the per-event success records in
`eventTickets`) plus the remaining supply equals `totalTickets` — so the
success count `= totalTickets - remainingTickets` never exceeds
`totalTickets` — and once an event is created, along any further transitions
it stays created with `totalTickets` unchanged. -/
theorem C1_capacity_invariant (s : EngineState) (h : Reachable s) :
    (∀ e, (s.events e).exists_ = true →
      (s.events e).remainingTickets ≤ (s.events e).totalTickets ∧
      (s.eventTickets e).length + (s.events e).remainingTickets
        = (s.events e).totalTickets ∧
      (s.eventTickets e).length ≤ (s.events e).totalTickets) ∧
    (∀ s2, Relation.ReflTransGen Step s s2 →
      ∀ e, (s.events e).exists_ = true →
        (s2.events e).exists_ = true ∧
        (s2.events e).totalTickets = (s.events e).totalTickets) := by
  have hinv := reachable_inv h
  refine ⟨?_, ?_⟩
  · intro e hex
    have h1 := hinv.capLe e hex
    have h2 := hinv.countEq e hex
    exact ⟨h1, h2, by omega⟩
  · intro s2 hrtg e hex
    exact rtg_event_pres hinv hrtg e hex

theorem C1_capacity_invariant_witness :
    (sA.events 1).exists_ = true ∧
    (sA.events 1).remainingTickets ≤ (sA.events 1).totalTickets ∧
    (sA.eventTickets 1).length + (sA.events 1).remainingTickets
      = (sA.events 1).totalTickets ∧
    (sA.eventTickets 1).length ≤ (sA.events 1).totalTickets := by
  have h := (C1_capacity_invariant sA reachable_sA).1 1 (by decide)
  exact ⟨by decide, h.1, h.2.1, h.2.2⟩

/-- C2: for an existing event the checks run in the fixed order
timing → duplicate → exhaustion: a pending start time yields `NotStarted`
(spec: `NotYetActive`) regardless of the other conditions, an active event
with a duplicate claimant yields `AlreadyOwnsTicket` (spec: `AlreadyClaimed`)
regardless of exhaustion, and `SoldOut` (spec: `Exhausted`) occurs exactly on
an active, not-yet-claimed, zero-remaining event. -/
theorem C2_check_order (s : EngineState) (c e now : Nat)
    (hex : (s.events e).exists_ = true) :
    (now < (s.events e).startTime →
      (applyOp s (Op.grab c e now)).2
        = OpResult.grabbed false AttemptResult.NotStarted 0) ∧
    (¬ now < (s.events e).startTime → s.hasTicketForEvent e c = true →
      (applyOp s (Op.grab c e now)).2
        = OpResult.grabbed false AttemptResult.AlreadyOwnsTicket 0) ∧
    (¬ now < (s.events e).startTime → s.hasTicketForEvent e c = false →
      (s.events e).remainingTickets = 0 →
      (applyOp s (Op.grab c e now)).2
        = OpResult.grabbed false AttemptResult.SoldOut 0) ∧
    (∀ b tid,
      (applyOp s (Op.grab c e now)).2 = OpResult.grabbed b AttemptResult.SoldOut tid →
      ¬ now < (s.events e).startTime ∧ s.hasTicketForEvent e c = false ∧
      (s.events e).remainingTickets = 0) := by
  rcases grab_cases s c e now with ⟨hne, _, _⟩ | ⟨_, h2, hap⟩ | ⟨_, h2, h3, hap⟩ |
    ⟨_, h2, h3, h4, hap⟩ | ⟨_, h2, h3, h4, hap⟩
  · simp [hne] at hex
  · refine ⟨fun _ => by rw [hap], fun hn _ => absurd h2 hn,
      fun hn _ _ => absurd h2 hn, ?_⟩
    intro b tid hres
    rw [hap] at hres
    simp at hres
  · refine ⟨fun hlt => absurd hlt h2, fun _ _ => by rw [hap], ?_, ?_⟩
    · intro _ hfalse _
      rw [h3] at hfalse
      exact Bool.noConfusion hfalse
    · intro b tid hres
      rw [hap] at hres
      simp at hres
  · refine ⟨fun hlt => absurd hlt h2, ?_, fun _ _ _ => by rw [hap], ?_⟩
    · intro _ htrue
      rw [h3] at htrue
      exact Bool.noConfusion htrue
    · intro b tid _
      exact ⟨h2, h3, h4⟩
  · refine ⟨fun hlt => absurd hlt h2, ?_, fun _ _ hz => absurd hz h4, ?_⟩
    · intro _ htrue
      rw [h3] at htrue
      exact Bool.noConfusion htrue
    · intro b tid hres
      rw [hap] at hres
      simp at hres

theorem C2_check_order_witness :
    (applyOp sA (Op.grab 5 1 50)).2
      = OpResult.grabbed false AttemptResult.NotStarted 0 :=
  (C2_check_order sA 5 1 50 (by decide)).1 (by decide)

/-- C3: in every reachable state at most one occupied `tickets` slot carries a
given (event, claimant) pair, and an issued ticket record is never mutated or
deleted by later transitions. -/
theorem C3_one_ticket_per_pair (s : EngineState) (h : Reachable s) :
    (∀ e c t1 t2, isTicketFor s t1 e c → isTicketFor s t2 e c → t1 = t2) ∧
    (∀ s2, Relation.ReflTransGen Step s s2 →
      ∀ tk, (s.tickets tk).id ≠ 0 → s2.tickets tk = s.tickets tk) := by
  have hinv := reachable_inv h
  refine ⟨?_, ?_⟩
  · rintro e c t1 t2 ⟨ha1, he1, ho1⟩ ⟨ha2, he2, ho2⟩
    exact hinv.ticketUniq t1 t2 ha1 ha2 (he1.trans he2.symm) (ho1.trans ho2.symm)
  · intro s2 hrtg tk htk
    exact rtg_ticket_pres hinv hrtg tk htk

theorem C3_one_ticket_per_pair_witness :
    (1 : Nat) = 1 ∧ sA.tickets 1 = sA.tickets 1 :=
  ⟨(C3_one_ticket_per_pair sA reachable_sA).1 1 5 1 1
      ⟨by decide, by decide, by decide⟩ ⟨by decide, by decide, by decide⟩,
   (C3_one_ticket_per_pair sA reachable_sA).2 sA Relation.ReflTransGen.refl 1
      (by decide)⟩

/-- C4: every `grabTicket` call that does not revert appends exactly one entry
to the caller's attempt log, carrying exactly the returned outcome, and leaves
every other claimant's log unchanged — for all four outcomes. -/
theorem C4_ledger_complete (s : EngineState) (c e now : Nat) (b : Bool)
    (r : AttemptResult) (tid : Nat)
    (hr : (applyOp s (Op.grab c e now)).2 = OpResult.grabbed b r tid) :
    (applyOp s (Op.grab c e now)).1.userAttempts c
      = s.userAttempts c ++ [⟨e, c, now, r⟩] ∧
    (∀ u, u ≠ c → (applyOp s (Op.grab c e now)).1.userAttempts u
      = s.userAttempts u) := by
  rcases grab_cases s c e now with ⟨_, _, hap⟩ | ⟨_, _, hap⟩ | ⟨_, _, _, hap⟩ |
    ⟨_, _, _, _, hap⟩ | ⟨_, _, _, _, hap⟩ <;> rw [hap] at hr ⊢
  · simp at hr
  · simp only [] at hr
    simp at hr
    obtain ⟨_, hrr, _⟩ := hr
    subst hrr
    refine ⟨by simp [_recordAttempt, updF], ?_⟩
    intro u hu
    simp [_recordAttempt, updF, hu]
  · simp at hr
    obtain ⟨_, hrr, _⟩ := hr
    subst hrr
    refine ⟨by simp [_recordAttempt, updF], ?_⟩
    intro u hu
    simp [_recordAttempt, updF, hu]
  · simp at hr
    obtain ⟨_, hrr, _⟩ := hr
    subst hrr
    refine ⟨by simp [_recordAttempt, updF], ?_⟩
    intro u hu
    simp [_recordAttempt, updF, hu]
  · simp at hr
    obtain ⟨_, hrr, _⟩ := hr
    subst hrr
    refine ⟨by simp [_recordAttempt, successState, updF], ?_⟩
    intro u hu
    simp [_recordAttempt, successState, updF, hu]

theorem C4_ledger_complete_witness :
    (applyOp s1 (Op.grab 5 1 150)).1.userAttempts 5
      = s1.userAttempts 5 ++ [⟨1, 5, 150, AttemptResult.Success⟩] ∧
    (∀ u, u ≠ 5 → (applyOp s1 (Op.grab 5 1 150)).1.userAttempts u
      = s1.userAttempts u) :=
  C4_ledger_complete s1 5 1 150 true AttemptResult.Success 1 (by decide)

/-- C5: `createEvent` reverts exactly when the title is empty, the capacity is
below 1, or the start time is not strictly in the future; a revert leaves the
storage untouched; a success hands out `nextEventId`, increments it, and
stores the event with `remainingTickets = totalTickets`. -/
theorem C5_createEvent_validation (s : EngineState) (c : Nat) (title : String)
    (st tot now : Nat) :
    ((∃ msg, createEvent s c title st tot now = Except.error msg) ↔
      (title = "" ∨ tot < 1 ∨ ¬ now < st)) ∧
    ((∃ msg, createEvent s c title st tot now = Except.error msg) →
      (applyOp s (Op.create c title st tot now)).1 = s) ∧
    (∀ eid s2, createEvent s c title st tot now = Except.ok (eid, s2) →
      eid = s.nextEventId ∧ s2.nextEventId = s.nextEventId + 1 ∧
      s2.events eid = { id := eid, title := title, startTime := st,
                        totalTickets := tot, remainingTickets := tot,
                        organizer := c, exists_ := true }) := by
  rcases create_cases s c title st tot now with ⟨hor, msg, herr, hap⟩ |
    ⟨ht, htot, hst, hok, hap⟩
  · refine ⟨⟨fun _ => ?_, fun _ => ⟨msg, herr⟩⟩, fun _ => by rw [hap], ?_⟩
    · rcases hor with h | h | h
      · exact Or.inl ((title_length_zero_iff title).mp h)
      · exact Or.inr (Or.inl (by omega))
      · exact Or.inr (Or.inr h)
    · intro eid s2 hok2
      rw [herr] at hok2
      cases hok2
  · refine ⟨⟨?_, ?_⟩, ?_, ?_⟩
    · rintro ⟨msg, herr⟩
      rw [hok] at herr
      cases herr
    · intro hbad
      rcases hbad with h | h | h
      · exact absurd ht ((title_length_zero_iff title).mpr h)
      · omega
      · exact absurd hst h
    · rintro ⟨msg, herr⟩
      rw [hok] at herr
      cases herr
    · intro eid s2 hok2
      rw [hok] at hok2
      obtain ⟨rfl, rfl⟩ : eid = s.nextEventId ∧ s2 = createdState s c title st tot := by
        have := hok2
        injection this with h1
        injection h1 with ha hb
        exact ⟨ha.symm, hb.symm⟩
      refine ⟨rfl, rfl, ?_⟩
      simp [createdState, updF]

theorem C5_createEvent_validation_witness :
    ((∃ msg, createEvent initState 7 "" 100 10 0 = Except.error msg) ↔
      (("" : String) = "" ∨ 10 < 1 ∨ ¬ (0 : Nat) < 100)) ∧
    (applyOp initState (Op.create 7 "" 100 10 0)).1 = initState ∧
    ((1 : Nat) = initState.nextEventId ∧
      (createdState initState 7 "X" 100 2).nextEventId = initState.nextEventId + 1 ∧
      (createdState initState 7 "X" 100 2).events 1
        = { id := 1, title := "X", startTime := 100, totalTickets := 2,
            remainingTickets := 2, organizer := 7, exists_ := true }) :=
  ⟨(C5_createEvent_validation initState 7 "" 100 10 0).1,
   (C5_createEvent_validation initState 7 "" 100 10 0).2.1
      ⟨"Title cannot be empty", rfl⟩,
   (C5_createEvent_validation initState 7 "X" 100 2 0).2.2 1
      (createdState initState 7 "X" 100 2) rfl⟩

/-- C6: a claim against an event id that was never created reverts with
"Event does not exist" before any write: no attempt-log entry, no ticket, no
counter change — the post-state is the pre-state itself. -/
theorem C6_notfound_abort (s : EngineState) (c e now : Nat)
    (hne : (s.events e).exists_ = false) :
    grabTicket s c e now = Except.error "Event does not exist" ∧
    applyOp s (Op.grab c e now) = (s, OpResult.grabFailed "Event does not exist") := by
  rcases grab_cases s c e now with ⟨_, herr, hap⟩ | ⟨hex, _, _⟩ | ⟨hex, _, _, _⟩ |
    ⟨hex, _, _, _, _⟩ | ⟨hex, _, _, _, _⟩
  · exact ⟨herr, hap⟩
  all_goals rw [hne] at hex; exact Bool.noConfusion hex

theorem C6_notfound_abort_witness :
    grabTicket initState 1 5 10 = Except.error "Event does not exist" ∧
    applyOp initState (Op.grab 1 5 10)
      = (initState, OpResult.grabFailed "Event does not exist") :=
  C6_notfound_abort initState 1 5 10 (by decide)

/-- C7: across the whole system the ticket ids of successful claims are
strictly increasing in order of occurrence (hence never repeated); a success
hands out exactly the current `nextTicketId` and advances it by one, and an
unsuccessful claim leaves `nextTicketId` untouched (no id consumed or
reserved). -/
theorem C7_ticket_id_monotonic :
    (∀ ops, List.Pairwise (· < ·) (issuedIds (runFrom initState ops).2)) ∧
    (∀ s c e now r tid,
      (applyOp s (Op.grab c e now)).2 = OpResult.grabbed true r tid →
        tid = s.nextTicketId ∧
        ((applyOp s (Op.grab c e now)).1).nextTicketId = s.nextTicketId + 1) ∧
    (∀ s c e now r tid,
      (applyOp s (Op.grab c e now)).2 = OpResult.grabbed false r tid →
        ((applyOp s (Op.grab c e now)).1).nextTicketId = s.nextTicketId) := by
  refine ⟨fun ops => issued_pairwise ops initState, ?_, ?_⟩
  · intro s c e now r tid hr
    obtain ⟨h1, h2, _⟩ := applyOp_success_next s _ r tid hr
    exact ⟨h1, h2⟩
  · intro s c e now r tid hr
    exact (applyOp_fail_next s _ r tid hr).1

theorem C7_ticket_id_monotonic_witness :
    List.Pairwise (· < ·) (issuedIds (runFrom initState opsA).2) ∧
    ((1 : Nat) = s1.nextTicketId ∧
      (applyOp s1 (Op.grab 5 1 150)).1.nextTicketId = s1.nextTicketId + 1) ∧
    (applyOp sA (Op.grab 8 1 150)).1.nextTicketId = sA.nextTicketId :=
  ⟨C7_ticket_id_monotonic.1 opsA,
   C7_ticket_id_monotonic.2.1 s1 5 1 150 AttemptResult.Success 1 (by decide),
   C7_ticket_id_monotonic.2.2 sA 8 1 150 AttemptResult.SoldOut 0 (by decide)⟩

/-- C8: a claim returning a non-success outcome changes nothing except
appending that outcome to the caller's attempt log: events, tickets, both
ownership mappings, `nextTicketId`, the per-event ticket lists, and the
per-user event lists are untouched. -/
theorem C8_failure_frame (s : EngineState) (c e now : Nat) (r : AttemptResult)
    (tid : Nat)
    (hr : (applyOp s (Op.grab c e now)).2 = OpResult.grabbed false r tid) :
    (applyOp s (Op.grab c e now)).1.events = s.events ∧
    (applyOp s (Op.grab c e now)).1.tickets = s.tickets ∧
    (applyOp s (Op.grab c e now)).1.hasTicketForEvent = s.hasTicketForEvent ∧
    (applyOp s (Op.grab c e now)).1.userTicketForEvent = s.userTicketForEvent ∧
    (applyOp s (Op.grab c e now)).1.nextTicketId = s.nextTicketId ∧
    (applyOp s (Op.grab c e now)).1.eventTickets = s.eventTickets ∧
    (applyOp s (Op.grab c e now)).1.userEvents = s.userEvents ∧
    (applyOp s (Op.grab c e now)).1.userAttempts c
      = s.userAttempts c ++ [⟨e, c, now, r⟩] := by
  rcases grab_cases s c e now with ⟨_, _, hap⟩ | ⟨_, _, hap⟩ | ⟨_, _, _, hap⟩ |
    ⟨_, _, _, _, hap⟩ | ⟨_, _, _, _, hap⟩ <;> rw [hap] at hr ⊢ <;> simp at hr
  · obtain ⟨hrr, _⟩ := hr
    subst hrr
    exact ⟨rfl, rfl, rfl, rfl, rfl, rfl, rfl, by simp [_recordAttempt, updF]⟩
  · obtain ⟨hrr, _⟩ := hr
    subst hrr
    exact ⟨rfl, rfl, rfl, rfl, rfl, rfl, rfl, by simp [_recordAttempt, updF]⟩
  · obtain ⟨hrr, _⟩ := hr
    subst hrr
    exact ⟨rfl, rfl, rfl, rfl, rfl, rfl, rfl, by simp [_recordAttempt, updF]⟩

theorem C8_failure_frame_witness :
    (applyOp sA (Op.grab 8 1 150)).1.events = sA.events ∧
    (applyOp sA (Op.grab 8 1 150)).1.tickets = sA.tickets ∧
    (applyOp sA (Op.grab 8 1 150)).1.hasTicketForEvent = sA.hasTicketForEvent ∧
    (applyOp sA (Op.grab 8 1 150)).1.userTicketForEvent = sA.userTicketForEvent ∧
    (applyOp sA (Op.grab 8 1 150)).1.nextTicketId = sA.nextTicketId ∧
    (applyOp sA (Op.grab 8 1 150)).1.eventTickets = sA.eventTickets ∧
    (applyOp sA (Op.grab 8 1 150)).1.userEvents = sA.userEvents ∧
    (applyOp sA (Op.grab 8 1 150)).1.userAttempts 8
      = sA.userAttempts 8 ++ [⟨1, 8, 150, AttemptResult.SoldOut⟩] :=
  C8_failure_frame sA 8 1 150 AttemptResult.SoldOut 0 (by decide)

/-- C9: `getRecentTickets` returns the event's issued ticket ids reversed
(most recently issued first) and truncated to `_limit`, its length is
`min _limit count`, the owner and acquisition-time columns are the
corresponding projections, and a limit beyond the available count returns the
whole reversed list without failing. -/
theorem C9_recent_winners (s : EngineState) (e lim : Nat) :
    (getRecentTickets s e lim).1 = (s.eventTickets e).reverse.take lim ∧
    (getRecentTickets s e lim).1.length = min lim (s.eventTickets e).length ∧
    (getRecentTickets s e lim).2.1
      = (getRecentTickets s e lim).1.map (fun tId => (s.tickets tId).owner) ∧
    (getRecentTickets s e lim).2.2
      = (getRecentTickets s e lim).1.map (fun tId => (s.tickets tId).acquiredAt) ∧
    ((s.eventTickets e).length ≤ lim →
      (getRecentTickets s e lim).1 = (s.eventTickets e).reverse) := by
  have hmain : (getRecentTickets s e lim).1
      = (s.eventTickets e).reverse.take lim := recent_eq (s.eventTickets e) lim
  refine ⟨hmain, ?_, rfl, rfl, ?_⟩
  · rw [hmain]
    simp [List.length_take]
  · intro hle
    rw [hmain]
    exact List.take_of_length_le (by simpa using hle)

theorem C9_recent_winners_witness :
    (getRecentTickets sA 1 5).1 = [2, 1] ∧
    (getRecentTickets sA 1 5).1 = (sA.eventTickets 1).reverse :=
  ⟨by decide, (C9_recent_winners sA 1 5).2.2.2.2 (by decide)⟩

/-- C10: every unsuccessful claim returns ticket id 0, the counter starts at 1
and never decreases, in every reachable state every occupied ticket slot has a
positive index equal to its stored id — so id 0 is never issued — and a
successful claim in a reachable state returns an id of at least 1. -/
theorem C10_zero_never_issued :
    (∀ s c e now r tid,
      (applyOp s (Op.grab c e now)).2 = OpResult.grabbed false r tid → tid = 0) ∧
    initState.nextTicketId = 1 ∧
    (∀ s op, s.nextTicketId ≤ ((applyOp s op).1).nextTicketId) ∧
    (∀ s, Reachable s → 1 ≤ s.nextTicketId ∧
      ∀ tk, (s.tickets tk).id ≠ 0 → 0 < tk ∧ (s.tickets tk).id = tk) ∧
    (∀ s c e now r tid, Reachable s →
      (applyOp s (Op.grab c e now)).2 = OpResult.grabbed true r tid → 1 ≤ tid) := by
  refine ⟨?_, rfl, applyOp_nextTicket_mono, ?_, ?_⟩
  · intro s c e now r tid hr
    exact (applyOp_fail_next s _ r tid hr).2.1
  · intro s h
    have hinv := reachable_inv h
    exact ⟨hinv.oneLeTicket, fun tk htk =>
      ⟨(hinv.ticketIdEq tk htk).2.1, (hinv.ticketIdEq tk htk).1⟩⟩
  · intro s c e now r tid h hr
    obtain ⟨htid, _, _⟩ := applyOp_success_next s _ r tid hr
    rw [htid]
    exact (reachable_inv h).oneLeTicket

theorem C10_zero_never_issued_witness :
    (0 : Nat) = 0 ∧ (1 ≤ sA.nextTicketId ∧
      ∀ tk, (sA.tickets tk).id ≠ 0 → 0 < tk ∧ (sA.tickets tk).id = tk) ∧
    1 ≤ (1 : Nat) :=
  ⟨C10_zero_never_issued.1 sA 5 1 50 AttemptResult.NotStarted 0 (by decide),
   C10_zero_never_issued.2.2.2.1 sA reachable_sA,
   C10_zero_never_issued.2.2.2.2 s1 5 1 150 AttemptResult.Success 1 reachable_s1
     (by decide)⟩

end TicketEngine
